import Mathlib

/-!
Verification model of the News Dashboard summarization core
(`src/routes/summarize.js`, with the article-fetch route of the repository
providing the second byte-ceiling constant).

Modelling conventions:
* JavaScript strings are modelled as `List Char` (`JStr`); JS `length` is
  the list length, `slice(0, n)` is `List.take`, concatenation is `++`.
* Node's `net.isIP` (standard library, not repository code) is modelled by
  `ipVersion`, recognising dotted-quad IPv4 literals and hex-group IPv6
  literals (IPv4-in-IPv6 tails are not recognised; such literals are
  neither `::1` nor `fc`/`fd`-prefixed, so the guard outcome is unchanged).
* WHATWG URL parsing is a platform service: the router model receives the
  parse outcome (`Option ParsedUrl`) as an input.
* The network is modelled by a `FetchEvent` input: the fetch either raises
  an abort (timeout), returns a non-2xx response, or returns a 2xx response
  carrying the body chunks and a flag telling whether a streaming reader is
  available.
* IEEE-754 doubles are modelled as exact rationals; `Math.sqrt` is an
  abstract parameter `sqrtFn : ℚ → ℚ` (theorems that need it assume it is
  positive on positive inputs, which holds for the float function).
* The regex tag-stripping of `fetchTextFromUrl` (lines 53-58) is not the
  subject of any claim and is kept abstract as a parameter `stripFn`.
-/

namespace NewsDash

/-- JavaScript strings, modelled as lists of characters. -/
abbrev JStr := List Char

/-- Whitespace test, modelling the JS regex class `\s`. -/
def isWS (c : Char) : Bool := c.isWhitespace

/-- Models `String.prototype.trim`: drop leading and trailing whitespace. -/
def trimJ (s : JStr) : JStr :=
  ((s.dropWhile isWS).reverse.dropWhile isWS).reverse

/-- Models `String.prototype.toLowerCase` on the ASCII hostnames involved. -/
def toLowerJ (s : JStr) : JStr := s.map Char.toLower

/-- Models `s.split('.')` (used by `isPrivateIp` and `net.isIP` on IPv4). -/
def splitDotAux : List Char → List Char → List JStr
  | [], acc => [acc.reverse]
  | c :: rest, acc =>
    if c = '.' then acc.reverse :: splitDotAux rest []
    else splitDotAux rest (c :: acc)

/-- Models `s.split('.')`. -/
def splitDot (s : JStr) : List JStr := splitDotAux s []

/-- Models `s.split(':')` on one side of an IPv6 literal. -/
def splitColonAux : List Char → List Char → List JStr
  | [], acc => [acc.reverse]
  | c :: rest, acc =>
    if c = ':' then acc.reverse :: splitColonAux rest []
    else splitColonAux rest (c :: acc)

/-- Models `s.split(':')`. -/
def splitColon (s : JStr) : List JStr := splitColonAux s []

/-- Models splitting on the two-character separator `::` (leftmost,
non-overlapping), as `String.prototype.split('::')` does. -/
def splitCCAux : List Char → List Char → List JStr
  | [], acc => [acc.reverse]
  | ':' :: ':' :: rest, acc => acc.reverse :: splitCCAux rest []
  | c :: rest, acc => splitCCAux rest (c :: acc)

/-- Models `s.split('::')`. -/
def splitCC (s : JStr) : List JStr := splitCCAux s []

/-- Models `s.startsWith(p)`. -/
def startsWithJ (s p : JStr) : Bool := p.isPrefixOf s

/-- Models `s.endsWith(p)`. -/
def endsWithJ (s p : JStr) : Bool := p.isSuffixOf s

/-- Numeric value of a digit string, modelling `parseInt(s, 10)` on the
all-digit components produced by a validated IPv4 literal. -/
def digitsToNat : List Char → Nat → Nat
  | [], acc => acc
  | c :: rest, acc => digitsToNat rest (acc * 10 + (c.toNat - '0'.toNat))

/-- Models `parseInt(s, 10)` restricted to all-digit strings (`0` used as
the placeholder for the unreachable non-numeric case). -/
def parseDec (s : JStr) : Nat := digitsToNat s 0

/-- Decides whether one dotted component is a valid IPv4 octet the way
Node's `net.isIP` does: 1-3 digits, no leading zero, value at most 255. -/
def isIpv4Part (s : JStr) : Bool :=
  decide (1 ≤ s.length) && decide (s.length ≤ 3) && s.all Char.isDigit &&
    (decide (s.length = 1) || decide (s.headD '0' ≠ '0')) &&
    decide (parseDec s ≤ 255)

/-- Hex digit test for IPv6 groups. -/
def isHexDigitChar (c : Char) : Bool :=
  c.isDigit || (decide ('a' ≤ c) && decide (c ≤ 'f')) ||
    (decide ('A' ≤ c) && decide (c ≤ 'F'))

/-- Decides whether a colon-free fragment is a valid IPv6 hex group. -/
def isH16 (s : JStr) : Bool :=
  decide (1 ≤ s.length) && decide (s.length ≤ 4) && s.all isHexDigitChar

/-- Recognises hex-group IPv6 literals (at most one `::` compression),
modelling the IPv6 side of Node's `net.isIP`. -/
def isIpv6Str (s : JStr) : Bool :=
  match splitCC s with
  | [w] =>
    let gs := splitColon w
    decide (gs.length = 8) && gs.all isH16
  | [l, r] =>
    let ls := if l.isEmpty then [] else splitColon l
    let rs := if r.isEmpty then [] else splitColon r
    decide (ls.length + rs.length ≤ 7) && ls.all isH16 && rs.all isH16
  | _ => false

/-- Models Node's `net.isIP`: `4` for a valid IPv4 literal, `6` for a valid
IPv6 literal, `0` otherwise. -/
def ipVersion (s : JStr) : Nat :=
  let parts := splitDot s
  if decide (parts.length = 4) && parts.all isIpv4Part then 4
  else if isIpv6Str s then 6
  else 0

/-- Models `isPrivateIp` of `src/routes/summarize.js` lines 9-26 (the
article-fetch route carries an identical copy): classify the literal with
`net.isIP`, then test the private/loopback/link-local ranges on the parsed
octets (IPv4) or the `::1` / `fc` / `fd` string forms (IPv6). JS
`parts[0]`/`parts[1]` are modelled with `getD` (four parts are guaranteed
when the version is 4). -/
def isPrivateIp (ip : JStr) : Bool :=
  let v := ipVersion ip
  if v = 4 then
    let parts := (splitDot ip).map parseDec
    let a := parts.getD 0 0
    let b := parts.getD 1 0
    if a = 10 then true
    else if a = 127 then true
    else if a = 169 && b = 254 then true
    else if a = 192 && b = 168 then true
    else if a = 172 && decide (16 ≤ b) && decide (b ≤ 31) then true
    else false
  else if v = 6 then
    if ip = ':' :: ':' :: ['1'] ∨ ip = "0:0:0:0:0:0:0:1".toList then true
    else if startsWithJ ip ['f', 'c'] || startsWithJ ip ['f', 'd'] then true
    else false
  else false

/-- Outcome of `new URL(rawUrl)`: the fields of the parsed URL the route
reads. `protocol` carries the trailing colon, as in WHATWG URLs. -/
structure ParsedUrl where
  protocol : JStr
  hostname : JStr
deriving DecidableEq, Repr

/-- The four early-return branches of the URL validation in
`src/routes/summarize.js` lines 149-161. -/
inductive GuardError
  | invalidUrl
  | invalidProtocol
  | disallowedHost
  | disallowedIp
deriving DecidableEq, Repr

/-- Error taxonomy of the specification (section 7): both protocol problems
surface as `InvalidURL`, both host rejections as `DisallowedHost`. -/
inductive ErrKind
  | InvalidURL
  | DisallowedHost
deriving DecidableEq, Repr

/-- Maps a guard branch to the specification's error kind. -/
def GuardError.kind : GuardError → ErrKind
  | .invalidUrl => .InvalidURL
  | .invalidProtocol => .InvalidURL
  | .disallowedHost => .DisallowedHost
  | .disallowedIp => .DisallowedHost

/-- Models the URL Guard, lines 150-161 of `src/routes/summarize.js`:
parse failure, protocol check, lowercase hostname, `localhost` check, and
the private-IP-literal check. `none` means the URL is accepted. -/
def urlGuard : Option ParsedUrl → Option GuardError
  | none => some .invalidUrl
  | some p =>
    if ¬(p.protocol = "http:".toList ∨ p.protocol = "https:".toList) then
      some .invalidProtocol
    else
      let hostname := toLowerJ p.hostname
      if hostname = "localhost".toList ∨ endsWithJ hostname ".localhost".toList then
        some .disallowedHost
      else if ipVersion hostname ≠ 0 ∧ isPrivateIp hostname then
        some .disallowedIp
      else none

/-- Byte ceiling of the summarize route (`MAX_BYTES`, 300 KiB). -/
def MAX_BYTES : Nat := 300 * 1024

/-- Byte ceiling of the article-fetch route (200 KiB). -/
def ARTICLE_MAX_BYTES : Nat := 200 * 1024

/-- Typed failures of the bounded fetch. -/
inductive FetchErr
  | timeout
  | upstreamNotOk
  | tooLarge
deriving DecidableEq, Repr

/-- What the network produced for the single GET: an abort (the 8-second
timer fired before the response arrived), a non-2xx response, or a 2xx
response with its body chunks and a flag telling whether the body exposes
a streaming reader (`res.body.getReader`). -/
inductive FetchEvent
  | abort
  | notOk
  | ok (hasReader : Bool) (chunks : List JStr)
deriving DecidableEq, Repr

/-- Models the streaming read loop (lines 36-48): append each decoded
chunk, and fail with `tooLarge` the instant the accumulated length exceeds
the ceiling (strict comparison, checked after each append). -/
def readChunks (maxBytes : Nat) : List JStr → JStr → Except FetchErr JStr
  | [], acc => .ok acc
  | c :: cs, acc =>
    let t := acc ++ c
    if maxBytes < t.length then .error .tooLarge
    else readChunks maxBytes cs t

/-- Models lines 28-52 of `fetchTextFromUrl`: dispatch on the fetch
outcome; on a 2xx response either run the streaming loop or (fallback,
lines 49-51) read the whole body and truncate it to the ceiling. -/
def fetchBody (maxBytes : Nat) : FetchEvent → Except FetchErr JStr
  | .abort => .error .timeout
  | .notOk => .error .upstreamNotOk
  | .ok hasReader chunks =>
    if hasReader then readChunks maxBytes chunks []
    else
      let t := chunks.flatten
      .ok (if maxBytes < t.length then t.take maxBytes else t)

/-- Models `fetchTextFromUrl` (lines 28-59): the bounded body read
followed by the tag-stripping post-processing, which no claim concerns and
which is therefore kept abstract as `stripFn`. -/
def fetchTextFromUrl (stripFn : JStr → JStr) (maxBytes : Nat)
    (ev : FetchEvent) : Except FetchErr JStr :=
  match fetchBody maxBytes ev with
  | .ok t => .ok (stripFn t)
  | .error e => .error e

/-- Sentence-terminal characters of the segmentation regex. -/
def termChar (c : Char) : Bool := c = '.' || c = '!' || c = '?'

/-- Models `text.split(/(?<=[.!?])\s+/)`: a fragment boundary sits at a
whitespace character whose predecessor in the text is `.`, `!` or `?`; the
remaining whitespace of the run stays on the following fragment and is
removed by the subsequent `trim`. `prev` is the previously scanned
character (`none` at the start, where the lookbehind cannot match). -/
def splitSenAux : Option Char → List Char → List Char → List JStr
  | _, acc, [] => [acc.reverse]
  | prev, acc, c :: rest =>
    if isWS c && (match prev with | some p => termChar p | none => false) then
      acc.reverse :: splitSenAux (some c) [] rest
    else
      splitSenAux (some c) (c :: acc) rest

/-- Models `splitSentences` (lines 61-67): newlines become spaces, split at
sentence-terminal boundaries, trim each fragment, drop empty fragments. -/
def splitSentences (text : JStr) : List JStr :=
  let t := text.map (fun c => if c = '\n' then ' ' else c)
  ((splitSenAux none [] t).map trimJ).filter (fun s => !s.isEmpty)

/-- Splits a character list at each whitespace character, modelling
`s.split(/\s+/)` up to empty fragments, which the caller's length filter
removes. -/
def splitWSAux : List Char → List Char → List JStr
  | acc, [] => [acc.reverse]
  | acc, c :: rest =>
    if isWS c then acc.reverse :: splitWSAux [] rest
    else splitWSAux (c :: acc) rest

/-- Models `tokenize` (lines 69-75): lowercase, replace every character
outside `[a-z0-9\s]` by a space, split on whitespace, keep only tokens
longer than two characters. -/
def tokenize (s : JStr) : List JStr :=
  let lowered := s.map Char.toLower
  let cleaned := lowered.map (fun c =>
    if (decide ('a' ≤ c) && decide (c ≤ 'z')) ||
       (decide ('0' ≤ c) && decide (c ≤ '9')) || isWS c then c else ' ')
  (splitWSAux [] cleaned).filter (fun w => decide (2 < w.length))

/-- Adds the tokens of one sentence to the vocabulary in first-seen order,
modelling the `vocab.set(t, idx++)` updates of `buildSentenceVectors`. -/
def addTokens (vocab : List JStr) (toks : List JStr) : List JStr :=
  toks.foldl (fun v t => if t ∈ v then v else v ++ [t]) vocab

/-- The request-local vocabulary: distinct tokens in first-seen order; a
token's id is its position in this list. -/
def buildVocab (sentences : List JStr) : List JStr :=
  sentences.foldl (fun v s => addTokens v (tokenize s)) []

/-- Dense form of one sentence's term-frequency object: position `id`
holds the count of the vocabulary's `id`-th token in the sentence (absent
keys of the JS object are the zero entries). -/
def sentVec (vocab : List JStr) (s : JStr) : List Nat :=
  vocab.map (fun t => (tokenize s).count t)

/-- Models `buildSentenceVectors` (lines 77-92): one term-frequency vector
per sentence over the shared request-local vocabulary. -/
def buildSentenceVectors (sentences : List JStr) : List (List Nat) :=
  sentences.map (sentVec (buildVocab sentences))

/-- Dot product of two term-frequency vectors over the vocabulary ids,
as the `for (const k in a) ... dot += av * b[k]` loop computes it. -/
def dotQ (a b : List Nat) : ℚ :=
  ∑ i ∈ Finset.range (max a.length b.length), (a.getD i 0 : ℚ) * (b.getD i 0 : ℚ)

/-- Sum of squared entries of one vector (`na`/`nb` of `cosineSim`). -/
def normSqQ (a : List Nat) : ℚ :=
  ∑ i ∈ Finset.range a.length, (a.getD i 0 : ℚ) * (a.getD i 0 : ℚ)

/-- Models `cosineSim` (lines 94-109) with `Math.sqrt` abstracted by
`sqrtFn`: zero when either vector has zero norm, otherwise the dot product
divided by the product of the two Euclidean norms. -/
def cosineSim (sqrtFn : ℚ → ℚ) (a b : List Nat) : ℚ :=
  if normSqQ a = 0 ∨ normSqQ b = 0 then 0
  else dotQ a b / (sqrtFn (normSqQ a) * sqrtFn (normSqQ b))

/-- The similarity matrix `sim` of `textRank` (lines 118-125): zero on the
diagonal, cosine similarity elsewhere, symmetric by construction. Entries
outside the vector list read the empty vector and are zero. -/
def simMat (sqrtFn : ℚ → ℚ) (vectors : List (List Nat)) (i j : Nat) : ℚ :=
  if i = j then 0 else cosineSim sqrtFn (vectors.getD i []) (vectors.getD j [])

/-- Row sums of the similarity matrix, precomputed once (line 127). -/
def rowSumM (sim : Nat → Nat → ℚ) (n i : Nat) : ℚ :=
  ∑ j ∈ Finset.range n, sim i j

/-- One iteration of the score loop (lines 129-138): every entry of the
next array starts at `(1-d)/n`; a row with zero similarity sum is skipped;
otherwise every `j` with positive similarity to `i` contributes
`d * (sim[j][i]/rowSum[j]) * scores[j]`. The next array is computed
entirely from the previous snapshot `s` (synchronous update). -/
def nextScores (n : Nat) (d : ℚ) (sim : Nat → Nat → ℚ) (s : Nat → ℚ) :
    Nat → ℚ := fun i =>
  if rowSumM sim n i = 0 then (1 - d) / n
  else (1 - d) / n +
    ∑ j ∈ Finset.range n,
      (if 0 < sim j i then d * (sim j i / rowSumM sim n j) * s j else 0)

/-- Scores after `iters` iterations, starting from the uniform `1/n`
initialisation (line 128). -/
def scoresAfter (n : Nat) (d : ℚ) (sim : Nat → Nat → ℚ) (iters : Nat) :
    Nat → ℚ :=
  (nextScores n d sim)^[iters] (fun _ => 1 / n)

/-- Modelled from the spec: one iteration written exactly as section 4.6
states it, `(1-d)/N + d * Σ_j (sim[j][i]/rowSum[j]) * score[j]` over all
`j` whose row sum is non-zero and whose similarity to `i` is positive.
Kept separate from `nextScores` (which follows the code) so the two can be
compared. -/
def specNextScores (n : Nat) (d : ℚ) (sim : Nat → Nat → ℚ) (s : Nat → ℚ) :
    Nat → ℚ := fun i =>
  (1 - d) / n +
    d * ∑ j ∈ Finset.range n,
      (if rowSumM sim n j ≠ 0 ∧ 0 < sim j i then
        (sim j i / rowSumM sim n j) * s j else 0)

/-- Elements of the array `textRank` returns. The JS function returns
`[0]` — a list holding the bare number `0` — for a single sentence, and a
list of `(idx, score)` objects otherwise; the two shapes are the two
constructors. -/
inductive RankEntry
  | bare (k : Nat)
  | pair (idx : Nat) (score : ℚ)
deriving DecidableEq, Repr

/-- Tells whether an entry is an `(idx, score)` object. -/
def RankEntry.isPair : RankEntry → Bool
  | .bare _ => false
  | .pair _ _ => true

/-- The `idx` field. Reading `idx` from the bare number (JS `undefined`) is
modelled as `0`; the selection theorems show that branch is unreachable
(selection only runs with at least four sentences, where every entry is a
pair). -/
def RankEntry.idxD : RankEntry → Nat
  | .bare _ => 0
  | .pair i _ => i

/-- The `score` field, with the same convention for the bare case, which
never reaches the sort (the single-sentence return precedes it). -/
def RankEntry.scoreD : RankEntry → ℚ
  | .bare _ => 0
  | .pair _ s => s

/-- Comparator of line 140, `(a, b) => b.score - a.score`: descending by
score; the JS sort is stable, so equal scores keep ascending index order. -/
def byScoreDesc (a b : RankEntry) : Bool := decide (b.scoreD ≤ a.scoreD)

/-- Comparator of line 178, `(a, b) => a.idx - b.idx`: ascending by index. -/
def byIdxAsc (a b : RankEntry) : Bool := decide (a.idxD ≤ b.idxD)

/-- Models `textRank` (lines 111-141): empty input gives an empty list, a
single sentence returns the bare `[0]`, otherwise the damped iteration
runs on the cosine similarity matrix and the scores are paired with their
indices and stably sorted by descending score. -/
def textRank (sqrtFn : ℚ → ℚ) (sentences : List JStr)
    (vectors : List (List Nat)) (d : ℚ) (iters : Nat) : List RankEntry :=
  let n := sentences.length
  if n = 0 then []
  else if n = 1 then [.bare 0]
  else
    let scores := scoresAfter n d (simMat sqrtFn vectors) iters
    ((List.range n).map (fun i => RankEntry.pair i (scores i))).mergeSort
      byScoreDesc

/-- Iteration count the summarize endpoint passes to `textRank`
(line 176). -/
def summarizeIters : Nat := 30

/-- Damping factor the summarize endpoint passes (0.85 as an exact
rational). -/
def damping : ℚ := 17 / 20

/-- Models `Array.prototype.join(' ')`. -/
def joinSp (l : List JStr) : JStr := List.intercalate [' '] l

/-- Models the Summary Selector, lines 173-179: at most three sentences
are returned whole, in order; otherwise the sentences are vectorised and
ranked, `count = min(3, max(1, floor(n*0.2)))` top entries are taken,
re-sorted by ascending original index, looked up and joined. For the
sentence counts the route can produce (the list is capped at 60) the float
expression `Math.floor(n*0.2)` equals `n / 5` in natural division. The JS
lookup `sentences[t.idx]` is modelled with `getD`; the bounds theorem for
the selection shows the default is never read. -/
def summarySelect (sqrtFn : ℚ → ℚ) (sentences : List JStr) : JStr :=
  if sentences.length ≤ 3 then joinSp sentences
  else
    let vectors := buildSentenceVectors sentences
    let ranked := textRank sqrtFn sentences vectors damping summarizeIters
    let topCount := min 3 (max 1 (sentences.length / 5))
    let top := ((ranked.take topCount).mergeSort byIdxAsc).map
      (fun t => sentences.getD t.idxD [])
    joinSp top

/-- Bodies of the JSON responses the route can produce. -/
inductive RespBody
  | errInvalidUrl
  | errInvalidProtocol
  | errDisallowedHost
  | errDisallowedIp
  | errMissing
  | errNoText
  | errNoSentences
  | errTimeout
  | errServer
  | summary (s : JStr)
deriving DecidableEq, Repr

/-- An HTTP response: status code and body. -/
structure Resp where
  status : Nat
  body : RespBody
deriving DecidableEq, Repr

/-- The four guard rejections all answer with status 400 (lines
154-160). -/
def guardResp : GuardError → Resp
  | .invalidUrl => ⟨400, .errInvalidUrl⟩
  | .invalidProtocol => ⟨400, .errInvalidProtocol⟩
  | .disallowedHost => ⟨400, .errDisallowedHost⟩
  | .disallowedIp => ⟨400, .errDisallowedIp⟩

/-- Models lines 169-180, the part of the handler that runs once `text` is
resolved: empty-after-trim gives 422, segmentation (capped at 60
sentences) giving nothing gives 422, otherwise the summary is built. -/
def summarizeCont (sqrtFn : ℚ → ℚ) (text : JStr) : Resp :=
  if (trimJ text).length = 0 then ⟨422, .errNoText⟩
  else
    let sentences := (splitSentences text).take 60
    if sentences.length = 0 then ⟨422, .errNoSentences⟩
    else ⟨200, .summary (summarySelect sqrtFn sentences)⟩

/-- The platform services the handler consumes: the outcome of
`new URL(url)`, the network's behaviour for the single GET, the regex
tag-stripper, and the float square root. -/
structure Oracles where
  parsed : Option ParsedUrl
  ev : FetchEvent
  stripFn : JStr → JStr
  sqrtFn : ℚ → ℚ

/-- JS truthiness of an optional string parameter: present and
non-empty. -/
def truthy : Option JStr → Bool
  | none => false
  | some s => !s.isEmpty

/-- Models the GET handler of `src/routes/summarize.js` (lines 143-186).
The second component records whether a network fetch was initiated. A
truthy `url` parameter selects the url branch regardless of `text`: guard
first, and only if the guard accepts is the fetch performed. The catch
block (lines 181-185) maps an abort to 504 and every other failure —
including the too-large and the non-2xx errors thrown inside
`fetchTextFromUrl` — to the generic 500. -/
def routerGet (qurl qtext : Option JStr) (o : Oracles) : Resp × Bool :=
  if truthy qurl then
    match urlGuard o.parsed with
    | some e => (guardResp e, false)
    | none =>
      match fetchTextFromUrl o.stripFn MAX_BYTES o.ev with
      | .error .timeout => (⟨504, .errTimeout⟩, true)
      | .error .upstreamNotOk => (⟨500, .errServer⟩, true)
      | .error .tooLarge => (⟨500, .errServer⟩, true)
      | .ok text => (summarizeCont o.sqrtFn text, true)
  else if truthy qtext then
    (summarizeCont o.sqrtFn ((qtext.getD []).take MAX_BYTES), false)
  else (⟨400, .errMissing⟩, false)

lemma urlGuard_hostCheck (p : ParsedUrl)
    (hproto : p.protocol = "http:".toList ∨ p.protocol = "https:".toList)
    (hnl1 : toLowerJ p.hostname ≠ "localhost".toList)
    (hnl2 : endsWithJ (toLowerJ p.hostname) ".localhost".toList = false)
    (hipv : ipVersion (toLowerJ p.hostname) ≠ 0)
    (hpriv : isPrivateIp (toLowerJ p.hostname) = true) :
    urlGuard (some p) = some .disallowedIp := by
  simp only [urlGuard]
  rw [if_neg, if_neg, if_pos]
  · exact ⟨hipv, hpriv⟩
  · rintro (h | h)
    · exact hnl1 h
    · rw [hnl2] at h; exact Bool.false_ne_true h
  · rw [not_not]; exact hproto

lemma isPrivateIp_v4 (ip : JStr) (a b : Nat)
    (hv : ipVersion ip = 4)
    (ha : ((splitDot ip).map parseDec).getD 0 0 = a)
    (hb : ((splitDot ip).map parseDec).getD 1 0 = b)
    (hrange : a = 127 ∨ a = 10 ∨ (a = 169 ∧ b = 254) ∨ (a = 192 ∧ b = 168) ∨
      (a = 172 ∧ 16 ≤ b ∧ b ≤ 31)) :
    isPrivateIp ip = true := by
  simp only [isPrivateIp, hv, ha, hb]
  norm_num
  rcases hrange with h | h | ⟨h1, h2⟩ | ⟨h1, h2⟩ | ⟨h1, h2, h3⟩ <;> subst_vars <;> simp_all

lemma isPrivateIp_v6 (ip : JStr)
    (hv : ipVersion ip = 6)
    (h6 : ip = "::1".toList ∨ startsWithJ ip ['f', 'c'] = true ∨
      startsWithJ ip ['f', 'd'] = true) :
    isPrivateIp ip = true := by
  simp only [isPrivateIp, hv]
  norm_num
  rcases h6 with h | h | h
  · subst h; simp
  · simp [h]
  · simp [h]

/-- Supporting lemma for claim C1: the true IPv4 half. Every hostname whose
lowercase form is a valid IPv4 literal with first octets in 127/8, 10/8,
169.254/16, 192.168/16 or 172.16-31 is rejected by the URL Guard with the
spec's `DisallowedHost` kind. -/
lemma urlGuard_rejects_ipv4_literal (p : ParsedUrl) (a b : Nat)
    (hproto : p.protocol = "http:".toList ∨ p.protocol = "https:".toList)
    (hv4 : ipVersion (toLowerJ p.hostname) = 4)
    (ha : ((splitDot (toLowerJ p.hostname)).map parseDec).getD 0 0 = a)
    (hb : ((splitDot (toLowerJ p.hostname)).map parseDec).getD 1 0 = b)
    (hrange : a = 127 ∨ a = 10 ∨ (a = 169 ∧ b = 254) ∨ (a = 192 ∧ b = 168) ∨
      (a = 172 ∧ 16 ≤ b ∧ b ≤ 31))
    (hnl : endsWithJ (toLowerJ p.hostname) ".localhost".toList = false) :
    (urlGuard (some p)).map GuardError.kind = some .DisallowedHost := by
  have hne : toLowerJ p.hostname ≠ "localhost".toList := by
    intro h; rw [h] at hv4; exact absurd hv4 (by decide)
  rw [urlGuard_hostCheck p hproto hne hnl (by rw [hv4]; decide)
    (isPrivateIp_v4 _ a b hv4 ha hb hrange)]
  rfl

/-- Claim C1, code bug: the IPv4 half of the claim holds — private-range
IPv4 literal hostnames are rejected with the `DisallowedHost` kind (see
`urlGuard_rejects_ipv4_literal`; sampled below across all five ranges) and
`8.8.8.8` is accepted — but the IPv6 half is false of the program. The
WHATWG parser serialises an IPv6 host with its brackets, so the route's
hostname for `http://[::1]/x` is `[::1]`; `net.isIP` classifies that
string as neither 4 nor 6, the private-IP check at line 159 is skipped,
the guard accepts, and a fetch to the loopback address is initiated (the
flag conjunct below). The IPv6 branch of `isPrivateIp` does flag the bare
`::1`, `fc` and `fd` forms — recording the intent the spec states — but
is unreachable from the route. -/
theorem c1_code_bug :
    (urlGuard (some ⟨"http:".toList, "[::1]".toList⟩) = none ∧
     urlGuard (some ⟨"http:".toList, "[fc00::1]".toList⟩) = none ∧
     urlGuard (some ⟨"http:".toList, "[fd00::1]".toList⟩) = none ∧
     (routerGet (some "http://[::1]/x".toList) none
       ⟨some ⟨"http:".toList, "[::1]".toList⟩, .abort, id, id⟩).2 = true) ∧
    (isPrivateIp "::1".toList = true ∧
     isPrivateIp "fc00::1".toList = true ∧
     isPrivateIp "fd00::1".toList = true) ∧
    ((urlGuard (some ⟨"http:".toList, "127.0.0.1".toList⟩)).map
       GuardError.kind = some .DisallowedHost ∧
     (urlGuard (some ⟨"http:".toList, "10.255.0.3".toList⟩)).map
       GuardError.kind = some .DisallowedHost ∧
     (urlGuard (some ⟨"http:".toList, "169.254.9.9".toList⟩)).map
       GuardError.kind = some .DisallowedHost ∧
     (urlGuard (some ⟨"http:".toList, "192.168.1.1".toList⟩)).map
       GuardError.kind = some .DisallowedHost ∧
     (urlGuard (some ⟨"http:".toList, "172.16.0.1".toList⟩)).map
       GuardError.kind = some .DisallowedHost ∧
     (urlGuard (some ⟨"http:".toList, "172.31.255.255".toList⟩)).map
       GuardError.kind = some .DisallowedHost ∧
     urlGuard (some ⟨"http:".toList, "8.8.8.8".toList⟩) = none) := by
  refine ⟨⟨by decide, by decide, by decide, by decide⟩,
    ⟨by decide, by decide, by decide⟩,
    by decide, by decide, by decide, by decide, by decide, by decide, by decide⟩

lemma readChunks_spec (maxBytes : Nat) :
    ∀ (chunks : List JStr) (acc : JStr), acc.length ≤ maxBytes →
      (maxBytes < (acc ++ chunks.flatten).length →
        readChunks maxBytes chunks acc = .error .tooLarge) ∧
      (∀ t, readChunks maxBytes chunks acc = .ok t → t.length ≤ maxBytes)
  | [], acc, hacc => by
    refine ⟨fun hover => ?_, fun t ht => ?_⟩
    · simp only [List.flatten_nil, List.append_nil] at hover; omega
    · simp only [readChunks] at ht
      cases ht; exact hacc
  | c :: cs, acc, hacc => by
    simp only [readChunks, List.flatten_cons]
    by_cases h : maxBytes < (acc ++ c).length
    · refine ⟨fun _ => by rw [if_pos h], fun t ht => ?_⟩
      rw [if_pos h] at ht; cases ht
    · rw [if_neg h]
      have hle : (acc ++ c).length ≤ maxBytes := by omega
      obtain ⟨ih1, ih2⟩ := readChunks_spec maxBytes cs (acc ++ c) hle
      refine ⟨fun hover => ih1 ?_, ih2⟩
      simp only [List.length_append] at hover ⊢
      omega

/-- Claim C2, amended: with a streaming reader available, a body whose total
length exceeds the ceiling makes the bounded read fail with `tooLarge`;
and every successful bounded read — streaming or truncating fallback —
returns text of length at most the ceiling. Stated for an arbitrary
ceiling, so it covers both the 300 KiB summarize constant and the 200 KiB
article-fetch constant. -/
theorem c2_amended (maxBytes : Nat) :
    (∀ chunks : List JStr, maxBytes < chunks.flatten.length →
      fetchBody maxBytes (.ok true chunks) = .error .tooLarge) ∧
    (∀ (ev : FetchEvent) (t : JStr), fetchBody maxBytes ev = .ok t →
      t.length ≤ maxBytes) := by
  constructor
  · intro chunks hover
    simp only [fetchBody, if_true]
    exact (readChunks_spec maxBytes chunks [] (Nat.zero_le _)).1
      (by simpa using hover)
  · intro ev t ht
    cases ev with
    | abort => cases ht
    | notOk => cases ht
    | ok hasReader chunks =>
      simp only [fetchBody] at ht
      by_cases hr : hasReader
      · rw [if_pos hr] at ht
        exact (readChunks_spec maxBytes chunks [] (Nat.zero_le _)).2 t ht
      · rw [if_neg hr] at ht
        cases ht
        split
        · simp only [List.length_take]; omega
        · omega

/-- Counterexample for claim C2 as stated: in the no-reader fallback branch an
oversized body is truncated and returned successfully, not rejected with
`tooLarge`. -/
theorem c2_counterexample :
    MAX_BYTES < ([List.replicate (MAX_BYTES + 1) 'a'] : List JStr).flatten.length ∧
    (fetchBody MAX_BYTES (.ok false [List.replicate (MAX_BYTES + 1) 'a'])).isOk
      = true ∧
    fetchBody MAX_BYTES (.ok false [List.replicate (MAX_BYTES + 1) 'a']) ≠
      .error .tooLarge := by
  refine ⟨?_, ?_, ?_⟩
  · simp [List.length_replicate]
  · simp only [fetchBody, Bool.false_eq_true, if_false]
    split <;> rfl
  · simp only [fetchBody, Bool.false_eq_true, if_false]
    split <;> simp

/-- Witness for claim C2 (amended) on a single oversized chunk. -/
theorem c2_witness :
    (MAX_BYTES < ([List.replicate (MAX_BYTES + 1) 'a'] : List JStr).flatten.length) ∧
    fetchBody MAX_BYTES (.ok true [List.replicate (MAX_BYTES + 1) 'a']) =
      .error .tooLarge :=
  ⟨by simp [List.length_replicate],
    (c2_amended MAX_BYTES).1 [List.replicate (MAX_BYTES + 1) 'a']
      (by simp [List.length_replicate])⟩

/-- Claim C3: a URL the guard rejects is answered with the 400 guard response and
the fetch-initiated flag stays false, whatever the network would have
done: the guard completes and returns before any fetch. -/
theorem c3 (qurl qtext : Option JStr) (o : Oracles) (e : GuardError)
    (hu : truthy qurl = true) (hg : urlGuard o.parsed = some e) :
    routerGet qurl qtext o = (guardResp e, false) ∧
    (routerGet qurl qtext o).1.status = 400 := by
  have h1 : routerGet qurl qtext o = (guardResp e, false) := by
    simp only [routerGet, hu, if_true, hg]
  exact ⟨h1, by rw [h1]; cases e <;> rfl⟩

/-- Witness for claim C3 at `http://localhost/x`. -/
theorem c3_witness :
    (truthy (some "http://localhost/x".toList) = true ∧
     urlGuard (some ⟨"http:".toList, "localhost".toList⟩) =
       some GuardError.disallowedHost) ∧
    (routerGet (some "http://localhost/x".toList) none
        ⟨some ⟨"http:".toList, "localhost".toList⟩, .notOk, id, id⟩ =
      (guardResp .disallowedHost, false) ∧
     (routerGet (some "http://localhost/x".toList) none
        ⟨some ⟨"http:".toList, "localhost".toList⟩, .notOk, id, id⟩).1.status = 400) :=
  ⟨⟨by decide, by decide⟩,
    c3 (some "http://localhost/x".toList) none
      ⟨some ⟨"http:".toList, "localhost".toList⟩, .notOk, id, id⟩
      .disallowedHost (by decide) (by decide)⟩

/-- Claim C6, amended: with the url branch and an accepted URL, an abort maps
to 504, while both the non-2xx upstream failure and the too-large failure
surface as the generic 500 — the catch block only special-cases
AbortError. -/
theorem c6_amended (qurl qtext : Option JStr) (o : Oracles)
    (hu : truthy qurl = true) (hg : urlGuard o.parsed = none) :
    (o.ev = .abort → (routerGet qurl qtext o).1 = ⟨504, .errTimeout⟩) ∧
    (o.ev = .notOk → (routerGet qurl qtext o).1 = ⟨500, .errServer⟩) ∧
    (∀ chunks : List JStr, o.ev = .ok true chunks →
      MAX_BYTES < chunks.flatten.length →
      (routerGet qurl qtext o).1 = ⟨500, .errServer⟩) := by
  refine ⟨fun hev => ?_, fun hev => ?_, fun chunks hev hover => ?_⟩
  · simp only [routerGet, hu, if_true, hg, fetchTextFromUrl, hev, fetchBody]
  · simp only [routerGet, hu, if_true, hg, fetchTextFromUrl, hev, fetchBody]
  · have hbig : fetchBody MAX_BYTES (.ok true chunks) = .error .tooLarge := by
      simp only [fetchBody, if_true]
      exact (readChunks_spec MAX_BYTES chunks [] (Nat.zero_le _)).1
        (by simpa using hover)
    simp only [routerGet, hu, if_true, hg, fetchTextFromUrl, hev, hbig]

/-- Witness for claim C6 (amended): the timeout case at an accepted URL. -/
theorem c6_witness :
    (truthy (some "http://a.example".toList) = true ∧
     urlGuard (some ⟨"http:".toList, "a.example".toList⟩) = none) ∧
    ((⟨some ⟨"http:".toList, "a.example".toList⟩, FetchEvent.abort, id, id⟩ :
        Oracles).ev = .abort →
      (routerGet (some "http://a.example".toList) none
        ⟨some ⟨"http:".toList, "a.example".toList⟩, .abort, id, id⟩).1 =
        ⟨504, .errTimeout⟩) :=
  ⟨⟨by decide, by decide⟩,
    (c6_amended (some "http://a.example".toList) none
      ⟨some ⟨"http:".toList, "a.example".toList⟩, .abort, id, id⟩
      (by decide) (by decide)).1⟩

lemma routerGet_fetchErr (qurl qtext : Option JStr) (o : Oracles)
    (hu : truthy qurl = true) (hg : urlGuard o.parsed = none)
    (e : FetchErr)
    (hf : fetchTextFromUrl o.stripFn MAX_BYTES o.ev = .error e) :
    routerGet qurl qtext o =
      (if e = .timeout then ⟨504, .errTimeout⟩ else ⟨500, .errServer⟩, true) := by
  simp only [routerGet, hu, if_true, hg, hf]
  cases e <;> rfl

/-- Counterexample for claim C6 as stated: a non-2xx upstream answer and an
oversized body both produce status 500 from the summarize route, not the
claimed 502 and 413. -/
theorem c6_counterexample :
    (routerGet (some "http://a.example".toList) none
      ⟨some ⟨"http:".toList, "a.example".toList⟩, .notOk, id, id⟩).1 =
      ⟨500, .errServer⟩ ∧
    (routerGet (some "http://a.example".toList) none
      ⟨some ⟨"http:".toList, "a.example".toList⟩,
        .ok true [List.replicate (MAX_BYTES + 1) 'a'], id, id⟩).1 =
      ⟨500, .errServer⟩ ∧
    (500 : Nat) ≠ 502 ∧ (500 : Nat) ≠ 413 := by
  refine ⟨by decide, ?_, by decide, by decide⟩
  have hbig : fetchBody MAX_BYTES
      (.ok true [List.replicate (MAX_BYTES + 1) 'a']) = .error .tooLarge := by
    simp only [fetchBody, if_true]
    exact (readChunks_spec MAX_BYTES [List.replicate (MAX_BYTES + 1) 'a'] []
      (Nat.zero_le _)).1 (by simp [List.length_replicate])
  have hf : fetchTextFromUrl id MAX_BYTES
      (.ok true [List.replicate (MAX_BYTES + 1) 'a']) = .error .tooLarge := by
    rw [fetchTextFromUrl, hbig]
  rw [routerGet_fetchErr (some "http://a.example".toList) none
    ⟨some ⟨"http:".toList, "a.example".toList⟩,
      .ok true [List.replicate (MAX_BYTES + 1) 'a'], id, id⟩
    (by decide) (by decide) .tooLarge hf]
  rfl

/-- Claim C10: when the url parameter is truthy the whole handler behaves as if
the text parameter were absent — the url branch takes precedence, the text
value is ignored, and no supplying-both error exists. -/
theorem c10 (qurl qtext : Option JStr) (o : Oracles)
    (hu : truthy qurl = true) :
    routerGet qurl qtext o = routerGet qurl none o := by
  simp only [routerGet, hu, if_true]

/-- Witness for claim C10 with both parameters supplied. -/
theorem c10_witness :
    truthy (some "http://a.example".toList) = true ∧
    routerGet (some "http://a.example".toList) (some "Some text here.".toList)
        ⟨none, .notOk, id, id⟩ =
      routerGet (some "http://a.example".toList) none ⟨none, .notOk, id, id⟩ :=
  ⟨by decide,
    c10 (some "http://a.example".toList) (some "Some text here.".toList)
      ⟨none, .notOk, id, id⟩ (by decide)⟩

lemma nextScores_congr (n : Nat) (d : ℚ) (sim : Nat → Nat → ℚ) (s t : Nat → ℚ)
    (h : ∀ j < n, s j = t j) (i : Nat) :
    nextScores n d sim s i = nextScores n d sim t i := by
  simp only [nextScores]
  split
  · rfl
  · congr 1
    refine Finset.sum_congr rfl (fun j hj => ?_)
    rw [Finset.mem_range] at hj
    rw [h j hj]

lemma specNextScores_congr (n : Nat) (d : ℚ) (sim : Nat → Nat → ℚ)
    (s t : Nat → ℚ) (h : ∀ j < n, s j = t j) (i : Nat) :
    specNextScores n d sim s i = specNextScores n d sim t i := by
  simp only [specNextScores]
  congr 2
  refine Finset.sum_congr rfl (fun j hj => ?_)
  rw [Finset.mem_range] at hj
  rw [h j hj]

lemma nextScores_eq_spec (n : Nat) (d : ℚ) (sim : Nat → Nat → ℚ)
    (hsymm : ∀ i j, sim i j = sim j i) (hpos : ∀ i j, 0 ≤ sim i j)
    (s : Nat → ℚ) (i : Nat) (hi : i < n) :
    nextScores n d sim s i = specNextScores n d sim s i := by
  simp only [nextScores, specNextScores]
  by_cases h0 : rowSumM sim n i = 0
  · rw [if_pos h0]
    have hz : ∀ j ∈ Finset.range n,
        (if rowSumM sim n j ≠ 0 ∧ 0 < sim j i then
          (sim j i / rowSumM sim n j) * s j else 0) = 0 := by
      intro j hj
      have hzero : sim j i = 0 := by
        rw [rowSumM] at h0
        have := (Finset.sum_eq_zero_iff_of_nonneg (fun k _ => hpos i k)).mp h0
        rw [hsymm j i]
        exact this j hj
      rw [if_neg]
      rintro ⟨-, hlt⟩
      rw [hzero] at hlt
      exact lt_irrefl 0 hlt
    rw [Finset.sum_congr rfl hz]
    simp
  · rw [if_neg h0, Finset.mul_sum]
    congr 1
    refine Finset.sum_congr rfl (fun j hj => ?_)
    rw [Finset.mem_range] at hj
    by_cases hp : 0 < sim j i
    · have hrj : rowSumM sim n j ≠ 0 := by
        have hle : sim j i ≤ rowSumM sim n j := by
          rw [rowSumM]
          exact Finset.single_le_sum (fun k _ => hpos j k)
            (Finset.mem_range.mpr hi)
        exact ne_of_gt (lt_of_lt_of_le hp hle)
      rw [if_pos hp, if_pos ⟨hrj, hp⟩, mul_assoc]
    · rw [if_neg hp, if_neg (fun hc => hp hc.2), mul_zero]

lemma scoresAfter_eq_spec (n : Nat) (d : ℚ) (sim : Nat → Nat → ℚ)
    (hsymm : ∀ i j, sim i j = sim j i) (hpos : ∀ i j, 0 ≤ sim i j) :
    ∀ k, ∀ i < n, scoresAfter n d sim k i =
      (specNextScores n d sim)^[k] (fun _ => 1 / n) i := by
  intro k
  induction k with
  | zero => intro i _; rfl
  | succ m ih =>
    intro i hi
    rw [scoresAfter, Function.iterate_succ_apply', Function.iterate_succ_apply']
    calc nextScores n d sim ((nextScores n d sim)^[m] fun _ => 1 / n) i
        = nextScores n d sim ((specNextScores n d sim)^[m] fun _ => 1 / n) i :=
          nextScores_congr n d sim _ _ (fun j hj => ih j hj) i
      _ = specNextScores n d sim ((specNextScores n d sim)^[m] fun _ => 1 / n) i :=
          nextScores_eq_spec n d sim hsymm hpos _ i hi

lemma dotQ_nonneg (a b : List Nat) : 0 ≤ dotQ a b := by
  refine Finset.sum_nonneg (fun i _ => ?_)
  positivity

lemma dotQ_comm (a b : List Nat) : dotQ a b = dotQ b a := by
  rw [dotQ, dotQ, Nat.max_comm]
  exact Finset.sum_congr rfl (fun i _ => mul_comm _ _)

lemma normSqQ_nonneg (a : List Nat) : 0 ≤ normSqQ a := by
  refine Finset.sum_nonneg (fun i _ => ?_)
  positivity

lemma cosineSim_nonneg (sqrtFn : ℚ → ℚ) (hsq : ∀ x : ℚ, 0 < x → 0 < sqrtFn x)
    (a b : List Nat) : 0 ≤ cosineSim sqrtFn a b := by
  rw [cosineSim]
  split
  · exact le_refl 0
  · rename_i h
    push_neg at h
    refine div_nonneg (dotQ_nonneg a b) (le_of_lt (mul_pos ?_ ?_))
    · exact hsq _ (lt_of_le_of_ne (normSqQ_nonneg a) (Ne.symm h.1))
    · exact hsq _ (lt_of_le_of_ne (normSqQ_nonneg b) (Ne.symm h.2))

lemma cosineSim_symm (sqrtFn : ℚ → ℚ) (a b : List Nat) :
    cosineSim sqrtFn a b = cosineSim sqrtFn b a := by
  rw [cosineSim, cosineSim]
  by_cases h : normSqQ a = 0 ∨ normSqQ b = 0
  · rw [if_pos h, if_pos (Or.symm h)]
  · rw [if_neg h, if_neg (fun hc => h (Or.symm hc)), dotQ_comm, mul_comm]

lemma simMat_symm (sqrtFn : ℚ → ℚ) (vectors : List (List Nat)) (i j : Nat) :
    simMat sqrtFn vectors i j = simMat sqrtFn vectors j i := by
  by_cases h : i = j
  · subst h; rfl
  · rw [simMat, simMat, if_neg h, if_neg (Ne.symm h), cosineSim_symm]

lemma simMat_nonneg (sqrtFn : ℚ → ℚ) (hsq : ∀ x : ℚ, 0 < x → 0 < sqrtFn x)
    (vectors : List (List Nat)) (i j : Nat) :
    0 ≤ simMat sqrtFn vectors i j := by
  rw [simMat]
  split
  · exact le_refl 0
  · exact cosineSim_nonneg sqrtFn hsq _ _

/-- Claim C4: on the cosine similarity matrix the ranker builds (symmetric with
non-negative entries, which the two matrix lemmas record), the score loop
starts every score at `1/N` and each of its synchronous iterations
computes exactly the spec recurrence
`(1-d)/N + d * Σ_j (sim[j][i]/rowSum[j]) * score[j]` over the `j` with
non-zero row sum and positive similarity to `i`; the summarize endpoint
runs exactly 30 iterations. -/
theorem c4 (sqrtFn : ℚ → ℚ) (hsq : ∀ x : ℚ, 0 < x → 0 < sqrtFn x)
    (vectors : List (List Nat)) (n : Nat) (_hn : 2 ≤ n) (d : ℚ) (iters : Nat) :
    (∀ i, scoresAfter n d (simMat sqrtFn vectors) 0 i = 1 / n) ∧
    (∀ i < n, scoresAfter n d (simMat sqrtFn vectors) iters i =
      (specNextScores n d (simMat sqrtFn vectors))^[iters] (fun _ => 1 / n) i) ∧
    summarizeIters = 30 := by
  refine ⟨fun i => rfl, ?_, rfl⟩
  exact scoresAfter_eq_spec n d (simMat sqrtFn vectors)
    (simMat_symm sqrtFn vectors) (simMat_nonneg sqrtFn hsq vectors) iters

/-- Witness for claim C4 with the identity as square root and two sentences. -/
theorem c4_witness :
    (2 ≤ 2) ∧
    ((∀ i, scoresAfter 2 damping (simMat id []) 0 i = 1 / ((2 : Nat) : ℚ)) ∧
     (∀ i < 2, scoresAfter 2 damping (simMat id []) 1 i =
       (specNextScores 2 damping (simMat id []))^[1]
         (fun _ => 1 / ((2 : Nat) : ℚ)) i) ∧
     summarizeIters = 30) :=
  ⟨by norm_num, c4 id (fun x hx => hx) [] 2 (by norm_num) damping 1⟩

lemma scoresAfter_nonneg (n : Nat) (d : ℚ) (sim : Nat → Nat → ℚ)
    (hd0 : 0 ≤ d) (hd1 : d ≤ 1) (hpos : ∀ i j, 0 ≤ sim i j) :
    ∀ k i, 0 ≤ scoresAfter n d sim k i := by
  intro k
  induction k with
  | zero =>
    intro i
    simp only [scoresAfter, Function.iterate_zero, id]
    positivity
  | succ m ih =>
    intro i
    rw [scoresAfter, Function.iterate_succ_apply']
    have hrow : ∀ j, 0 ≤ rowSumM sim n j := fun j =>
      Finset.sum_nonneg (fun k _ => hpos j k)
    simp only [nextScores]
    have hbase : 0 ≤ (1 - d) / (n : ℚ) := by
      have : (0:ℚ) ≤ (n : ℚ) := Nat.cast_nonneg n
      have h1d : 0 ≤ 1 - d := by linarith
      positivity
    split
    · exact hbase
    · refine add_nonneg hbase (Finset.sum_nonneg (fun j _ => ?_))
      split
      · refine mul_nonneg (mul_nonneg hd0 (div_nonneg (hpos j i) (hrow j))) ?_
        exact ih j
      · exact le_refl 0

lemma scoresAfter_sum_one (n : Nat) (d : ℚ) (sim : Nat → Nat → ℚ)
    (hpos : ∀ i j, 0 ≤ sim i j) (hn : 1 ≤ n)
    (hrows : ∀ i < n, rowSumM sim n i ≠ 0) :
    ∀ k, ∑ i ∈ Finset.range n, scoresAfter n d sim k i = 1 := by
  have hcast : ((n : ℚ)) ≠ 0 := Nat.cast_ne_zero.mpr (by omega)
  intro k
  induction k with
  | zero =>
    simp only [scoresAfter, Function.iterate_zero, id]
    rw [Finset.sum_const, Finset.card_range, nsmul_eq_mul, mul_one_div, div_self hcast]
  | succ m ih =>
    rw [scoresAfter, Function.iterate_succ_apply']
    have hsum := ih
    rw [scoresAfter] at hsum
    set s := (nextScores n d sim)^[m] (fun _ => 1 / (n:ℚ)) with hs
    have hstep : ∀ i ∈ Finset.range n, nextScores n d sim s i =
        (1 - d) / n + ∑ j ∈ Finset.range n,
          (if 0 < sim j i then d * (sim j i / rowSumM sim n j) * s j else 0) := by
      intro i hi
      rw [Finset.mem_range] at hi
      simp only [nextScores]
      rw [if_neg (hrows i hi)]
    rw [Finset.sum_congr rfl hstep, Finset.sum_add_distrib]
    have hconst : ∑ _i ∈ Finset.range n, (1 - d) / (n:ℚ) = 1 - d := by
      rw [Finset.sum_const, Finset.card_range, nsmul_eq_mul]
      field_simp
    have hmain : ∑ i ∈ Finset.range n, ∑ j ∈ Finset.range n,
        (if 0 < sim j i then d * (sim j i / rowSumM sim n j) * s j else 0) = d := by
      rw [Finset.sum_comm]
      have hinner : ∀ j ∈ Finset.range n, ∑ i ∈ Finset.range n,
          (if 0 < sim j i then d * (sim j i / rowSumM sim n j) * s j else 0) =
          d * s j := by
        intro j hj
        rw [Finset.mem_range] at hj
        have hterm : ∀ i ∈ Finset.range n,
            (if 0 < sim j i then d * (sim j i / rowSumM sim n j) * s j else 0) =
            (d * s j / rowSumM sim n j) * (if 0 < sim j i then sim j i else 0) := by
          intro i _
          split
          · ring
          · rw [mul_zero]
        rw [Finset.sum_congr rfl hterm, ← Finset.mul_sum]
        have hcollapse : ∑ i ∈ Finset.range n,
            (if 0 < sim j i then sim j i else 0) = rowSumM sim n j := by
          rw [rowSumM]
          refine Finset.sum_congr rfl (fun i _ => ?_)
          split
          · rfl
          · rename_i hnp
            have h0 : sim j i = 0 := le_antisymm (not_lt.mp hnp) (hpos j i)
            rw [h0]
        rw [hcollapse, div_mul_cancel₀ _ (hrows j hj)]
      rw [Finset.sum_congr rfl hinner, ← Finset.mul_sum, hsum, mul_one]
    rw [hconst, hmain]
    ring

lemma scoresAfter_zeroRows (n : Nat) (d : ℚ) (sim : Nat → Nat → ℚ)
    (hz : ∀ i, rowSumM sim n i = 0) (k : Nat) (hk : 1 ≤ k) :
    scoresAfter n d sim k = fun _ => (1 - d) / n := by
  obtain ⟨m, rfl⟩ : ∃ m, k = m + 1 := ⟨k - 1, by omega⟩
  funext i
  rw [scoresAfter, Function.iterate_succ_apply']
  simp only [nextScores]
  rw [if_pos (hz i)]

/-- Claim C7, amended: the ranker's scores are non-negative at every iteration;
when every row of the similarity matrix has a non-zero sum the scores sum
to exactly 1 after every iteration; a zero-sum row breaks the stochastic
normalisation (see the counterexample, where the total is 3/20). -/
theorem c7_amended (n : Nat) (d : ℚ) (sim : Nat → Nat → ℚ)
    (hd0 : 0 ≤ d) (hd1 : d ≤ 1) (hpos : ∀ i j, 0 ≤ sim i j) (hn : 1 ≤ n)
    (k : Nat) :
    (∀ i, 0 ≤ scoresAfter n d sim k i) ∧
    ((∀ i < n, rowSumM sim n i ≠ 0) →
      ∑ i ∈ Finset.range n, scoresAfter n d sim k i = 1) :=
  ⟨scoresAfter_nonneg n d sim hd0 hd1 hpos k,
    fun hrows => scoresAfter_sum_one n d sim hpos hn hrows k⟩

/-- Witness for claim C7 (amended) on the two-sentence complete graph. -/
theorem c7_witness :
    ((0:ℚ) ≤ damping ∧ damping ≤ 1 ∧
     (∀ i < 2, rowSumM (fun i j => if i = j then 0 else 1) 2 i ≠ 0)) ∧
    ((∀ i, 0 ≤ scoresAfter 2 damping (fun i j => if i = j then 0 else 1) 1 i) ∧
     ((∀ i < 2, rowSumM (fun i j => if i = j then 0 else 1) 2 i ≠ 0) →
       ∑ i ∈ Finset.range 2,
         scoresAfter 2 damping (fun i j => if i = j then 0 else 1) 1 i = 1)) := by
  have hrows : ∀ i < 2, rowSumM (fun i j : Nat => if i = j then (0:ℚ) else 1) 2 i ≠ 0 := by
    intro i hi
    interval_cases i <;>
      simp [rowSumM, Finset.sum_range_succ]
  refine ⟨⟨by rw [damping]; norm_num, by rw [damping]; norm_num, hrows⟩, ?_⟩
  exact c7_amended 2 damping (fun i j => if i = j then 0 else 1)
    (by rw [damping]; norm_num) (by rw [damping]; norm_num)
    (fun i j => by simp only []; split <;> norm_num) (by norm_num) 1

lemma emptyNorm_cosine (sqrtFn : ℚ → ℚ) (b : List Nat) :
    cosineSim sqrtFn [] b = 0 := by
  rw [cosineSim, if_pos]
  left
  rw [normSqQ]
  simp

lemma disjoint_vec_dot :
    dotQ [1, 1, 1, 0, 0, 0] [0, 0, 0, 1, 1, 1] = 0 := by
  rw [dotQ]
  norm_num [Finset.sum_range_succ]

lemma disjoint_vectors_eval :
    buildSentenceVectors
      ["Alpha beta gamma.".toList, "Delta epsilon zeta.".toList] =
      [[1, 1, 1, 0, 0, 0], [0, 0, 0, 1, 1, 1]] := by decide

lemma disjoint_sim_zeroRows :
    ∀ i, rowSumM (simMat (fun x => x)
      (buildSentenceVectors
        ["Alpha beta gamma.".toList, "Delta epsilon zeta.".toList])) 2 i = 0 := by
  intro i
  rw [disjoint_vectors_eval, rowSumM]
  have h01 : cosineSim (fun x : ℚ => x) [1, 1, 1, 0, 0, 0] [0, 0, 0, 1, 1, 1] = 0 := by
    rw [cosineSim]
    split
    · rfl
    · rw [disjoint_vec_dot, zero_div]
  have h10 : cosineSim (fun x : ℚ => x) [0, 0, 0, 1, 1, 1] [1, 1, 1, 0, 0, 0] = 0 := by
    rw [cosineSim_symm]; exact h01
  rcases i with _ | _ | m
  · simp [Finset.sum_range_succ, simMat, h01]
  · simp [Finset.sum_range_succ, simMat, h10]
  · have hget : ([[1, 1, 1, 0, 0, 0], [0, 0, 0, 1, 1, 1]] :
        List (List Nat)).getD (m + 2) [] = [] := by
      apply List.getD_eq_default
      simp
    simp only [Finset.sum_range_succ, Finset.sum_range_zero, simMat]
    rw [if_neg (by omega), if_neg (by omega), hget]
    rw [emptyNorm_cosine, emptyNorm_cosine]
    norm_num

/-- Counterexample for claim C7 as stated: two sentences with no shared
informative token give an all-zero similarity matrix, and after the
endpoint's 30 iterations the scores add up to 3/20 = 1 - d, far from the
claimed approximate 1. -/
theorem c7_counterexample :
    (∑ i ∈ Finset.range 2,
      scoresAfter 2 damping
        (simMat (fun x => x)
          (buildSentenceVectors
            ["Alpha beta gamma.".toList, "Delta epsilon zeta.".toList]))
        summarizeIters i) = 3 / 20 ∧
    ¬ ((3 : ℚ) / 20 = 1) ∧ (3 : ℚ) / 20 < 1 / 2 := by
  refine ⟨?_, by norm_num, by norm_num⟩
  rw [scoresAfter_zeroRows 2 damping _ disjoint_sim_zeroRows summarizeIters
    (by rw [summarizeIters]; norm_num)]
  rw [damping]
  rw [Finset.sum_range_succ, Finset.sum_range_succ, Finset.sum_range_zero]
  norm_num

/-- Claim C8, amended: zero sentences give the empty result; exactly one
sentence gives the one-element list holding the bare number 0 — the
sentence's index with no materialised score object, its full rank being
implicit. -/
theorem c8_amended (sqrtFn : ℚ → ℚ) (vectors : List (List Nat)) (d : ℚ)
    (iters : Nat) (s : JStr) :
    textRank sqrtFn [] vectors d iters = [] ∧
    textRank sqrtFn [s] vectors d iters = [RankEntry.bare 0] :=
  ⟨rfl, rfl⟩

/-- Counterexample for claim C8 as stated: for one sentence the returned element
is the bare number 0, not an (index, score) object. -/
theorem c8_counterexample :
    textRank (fun x => x) ["Cats sleep a lot.".toList]
      (buildSentenceVectors ["Cats sleep a lot.".toList]) damping
      summarizeIters = [RankEntry.bare 0] ∧
    (textRank (fun x => x) ["Cats sleep a lot.".toList]
      (buildSentenceVectors ["Cats sleep a lot.".toList]) damping
      summarizeIters).all (fun e => !e.isPair) = true :=
  ⟨rfl, rfl⟩

lemma textRank_large (sqrtFn : ℚ → ℚ) (sentences : List JStr)
    (vectors : List (List Nat)) (d : ℚ) (iters : Nat)
    (hn : 2 ≤ sentences.length) :
    textRank sqrtFn sentences vectors d iters =
      ((List.range sentences.length).map
        (fun i => RankEntry.pair i
          (scoresAfter sentences.length d (simMat sqrtFn vectors) iters i))).mergeSort
        byScoreDesc := by
  simp only [textRank]
  rw [if_neg (by omega), if_neg (by omega)]

lemma textRank_length (sqrtFn : ℚ → ℚ) (sentences : List JStr)
    (vectors : List (List Nat)) (d : ℚ) (iters : Nat)
    (hn : 2 ≤ sentences.length) :
    (textRank sqrtFn sentences vectors d iters).length = sentences.length := by
  rw [textRank_large sqrtFn sentences vectors d iters hn,
    List.length_mergeSort, List.length_map, List.length_range]

lemma textRank_mem (sqrtFn : ℚ → ℚ) (sentences : List JStr)
    (vectors : List (List Nat)) (d : ℚ) (iters : Nat)
    (hn : 2 ≤ sentences.length) :
    ∀ e ∈ textRank sqrtFn sentences vectors d iters,
      e.isPair = true ∧ e.idxD < sentences.length := by
  intro e he
  rw [textRank_large sqrtFn sentences vectors d iters hn,
    List.mem_mergeSort, List.mem_map] at he
  obtain ⟨i, hi, rfl⟩ := he
  rw [List.mem_range] at hi
  exact ⟨rfl, hi⟩

lemma byScoreDesc_trans : ∀ a b c : RankEntry,
    byScoreDesc a b = true → byScoreDesc b c = true → byScoreDesc a c = true := by
  intro a b c hab hbc
  simp only [byScoreDesc, decide_eq_true_eq] at *
  exact le_trans hbc hab

lemma byScoreDesc_total : ∀ a b : RankEntry,
    (byScoreDesc a b || byScoreDesc b a) = true := by
  intro a b
  simp only [byScoreDesc, Bool.or_eq_true, decide_eq_true_eq]
  exact le_total _ _

lemma byIdxAsc_trans : ∀ a b c : RankEntry,
    byIdxAsc a b = true → byIdxAsc b c = true → byIdxAsc a c = true := by
  intro a b c hab hbc
  simp only [byIdxAsc, decide_eq_true_eq] at *
  exact le_trans hab hbc

lemma byIdxAsc_total : ∀ a b : RankEntry,
    (byIdxAsc a b || byIdxAsc b a) = true := by
  intro a b
  simp only [byIdxAsc, Bool.or_eq_true, decide_eq_true_eq]
  exact le_total _ _

/-- Claim C5: with at most three sentences the Summary Selector returns all of
them, in original order, joined by single spaces, with the ranking oracle
never consulted; with more than three it returns exactly
`count = min 3 (max 1 ⌊n/5⌋)` — the spec's clamp — top-ranked entries,
re-sorted by ascending original index, looked up and joined; the ranked
list it draws from is sorted by descending score and the selected subset
by ascending index. -/
theorem c5 (sqrtFn : ℚ → ℚ) (sentences : List JStr) :
    (sentences.length ≤ 3 → summarySelect sqrtFn sentences = joinSp sentences) ∧
    (3 < sentences.length →
      summarySelect sqrtFn sentences =
        joinSp ((((textRank sqrtFn sentences (buildSentenceVectors sentences)
            damping summarizeIters).take
          (min 3 (max 1 (sentences.length / 5)))).mergeSort byIdxAsc).map
          (fun t => sentences.getD t.idxD [])) ∧
      ((((textRank sqrtFn sentences (buildSentenceVectors sentences) damping
          summarizeIters).take (min 3 (max 1 (sentences.length / 5)))).mergeSort
          byIdxAsc).map (fun t => sentences.getD t.idxD [])).length =
        min 3 (max 1 (sentences.length / 5)) ∧
      List.Pairwise (fun a b => byScoreDesc a b = true)
        (textRank sqrtFn sentences (buildSentenceVectors sentences) damping
          summarizeIters) ∧
      List.Pairwise (fun a b => byIdxAsc a b = true)
        (((textRank sqrtFn sentences (buildSentenceVectors sentences) damping
          summarizeIters).take (min 3 (max 1 (sentences.length / 5)))).mergeSort
          byIdxAsc)) := by
  constructor
  · intro h
    simp only [summarySelect]
    rw [if_pos h]
  · intro h
    refine ⟨?_, ?_, ?_, ?_⟩
    · simp only [summarySelect]
      rw [if_neg (not_le.mpr h)]
    · rw [List.length_map, List.length_mergeSort, List.length_take,
        textRank_length sqrtFn sentences (buildSentenceVectors sentences)
          damping summarizeIters (by omega)]
      omega
    · rw [textRank_large sqrtFn sentences (buildSentenceVectors sentences)
        damping summarizeIters (by omega)]
      exact List.sorted_mergeSort byScoreDesc_trans byScoreDesc_total _
    · exact List.sorted_mergeSort byIdxAsc_trans byIdxAsc_total _

/-- Witness for claim C5 on a three-sentence and a four-sentence input. -/
theorem c5_witness :
    (["One ox.".toList, "Two ox.".toList, "Three ox.".toList].length ≤ 3 ∧
     summarySelect (fun x => x)
        ["One ox.".toList, "Two ox.".toList, "Three ox.".toList] =
      joinSp ["One ox.".toList, "Two ox.".toList, "Three ox.".toList]) ∧
    (3 < (["Aaa bbb.".toList, "Ccc ddd.".toList, "Eee fff.".toList,
        "Ggg hhh.".toList] : List JStr).length ∧
     summarySelect (fun x => x)
        ["Aaa bbb.".toList, "Ccc ddd.".toList, "Eee fff.".toList,
          "Ggg hhh.".toList] =
      joinSp ((((textRank (fun x => x)
          ["Aaa bbb.".toList, "Ccc ddd.".toList, "Eee fff.".toList,
            "Ggg hhh.".toList]
          (buildSentenceVectors
            ["Aaa bbb.".toList, "Ccc ddd.".toList, "Eee fff.".toList,
              "Ggg hhh.".toList]) damping summarizeIters).take
        (min 3 (max 1 ((["Aaa bbb.".toList, "Ccc ddd.".toList,
          "Eee fff.".toList, "Ggg hhh.".toList] : List JStr).length / 5)))).mergeSort
        byIdxAsc).map
        (fun t => (["Aaa bbb.".toList, "Ccc ddd.".toList, "Eee fff.".toList,
          "Ggg hhh.".toList] : List JStr).getD t.idxD []))) :=
  ⟨⟨by decide,
    (c5 (fun x => x)
      ["One ox.".toList, "Two ox.".toList, "Three ox.".toList]).1 (by decide)⟩,
   by decide,
    ((c5 (fun x => x)
      ["Aaa bbb.".toList, "Ccc ddd.".toList, "Eee fff.".toList,
        "Ggg hhh.".toList]).2 (by decide)).1⟩

/-- Claim C9: the sentence list handed to ranking is capped at 60; in the
ranking branch (more than three sentences) every textRank result entry is
an (idx, score) pair with idx below the sentence count, and every lookup
the selection performs is therefore in bounds. -/
theorem c9 :
    (∀ text : JStr, ((splitSentences text).take 60).length ≤ 60) ∧
    (∀ (sqrtFn : ℚ → ℚ) (sentences : List JStr), 3 < sentences.length →
      (∀ e ∈ textRank sqrtFn sentences (buildSentenceVectors sentences) damping
        summarizeIters, e.isPair = true ∧ e.idxD < sentences.length) ∧
      (∀ e ∈ ((textRank sqrtFn sentences (buildSentenceVectors sentences)
          damping summarizeIters).take
          (min 3 (max 1 (sentences.length / 5)))).mergeSort byIdxAsc,
        (sentences[e.idxD]?).isSome = true)) := by
  constructor
  · intro text
    rw [List.length_take]
    omega
  · intro sqrtFn sentences h
    have hmem := textRank_mem sqrtFn sentences (buildSentenceVectors sentences)
      damping summarizeIters (by omega)
    refine ⟨hmem, fun e he => ?_⟩
    rw [List.mem_mergeSort] at he
    have he2 := List.take_subset _ _ he
    have hlt := (hmem e he2).2
    rw [List.getElem?_eq_getElem hlt]
    rfl

/-- Witness for claim C9 on a four-sentence input. -/
theorem c9_witness :
    ((splitSentences "Hi there. Yes indeed.".toList).take 60).length ≤ 60 ∧
    (3 < (["Aaa bbb.".toList, "Ccc ddd.".toList, "Eee fff.".toList,
        "Ggg hhh.".toList] : List JStr).length ∧
     (∀ e ∈ textRank (fun x => x)
        ["Aaa bbb.".toList, "Ccc ddd.".toList, "Eee fff.".toList,
          "Ggg hhh.".toList]
        (buildSentenceVectors
          ["Aaa bbb.".toList, "Ccc ddd.".toList, "Eee fff.".toList,
            "Ggg hhh.".toList]) damping summarizeIters,
        e.isPair = true ∧
        e.idxD < (["Aaa bbb.".toList, "Ccc ddd.".toList, "Eee fff.".toList,
          "Ggg hhh.".toList] : List JStr).length)) :=
  ⟨c9.1 "Hi there. Yes indeed.".toList,
   by decide,
   (c9.2 (fun x => x)
      ["Aaa bbb.".toList, "Ccc ddd.".toList, "Eee fff.".toList,
        "Ggg hhh.".toList] (by decide)).1⟩

end NewsDash
